import Mathlib

/-!
Shallow embedding of the commit-wizard CLI (TypeScript) into Lean 4.

Sources embedded:
- src/types.ts              (data model)
- src/lib/ai.ts             (AIService)
- src/lib/config.ts         (ConfigManager)
- src/lib/github.ts         (GitHubService.findExistingPR)
- src/commands/config.ts    (handleConfigSet / handleConfigGet display logic)
- src/commands/workflow.ts  (branch resolution, per-file commit loop)

Effectful boundaries (HTTP fetch, git subprocesses, the on-disk JSON config
file) are modelled as explicit oracle parameters or explicit state values;
fallible paths return Except/Option.  Every HTTP request an AIService call
issues is returned alongside the result as an explicit trace list, so
"no request was issued" is a provable statement.  JavaScript-specific
semantics (string trim, `parseInt`, truthiness of strings, regex matching,
`JSON.stringify` turning NaN into null) are modelled by executable Lean
functions that follow the JS behaviour of the constructs the source uses.
-/

namespace CommitWizard

/-- types.ts: the FileChange.type union "A" | "M" | "D". -/
inductive FileType where
  | A
  | M
  | D
deriving DecidableEq

/-- types.ts: FileChange. -/
structure FileChange where
  path : String
  type : FileType
deriving DecidableEq

/-- types.ts: CommitMessage. -/
structure CommitMessage where
  emoji : String
  type : String
  scope : Option String
  subject : String
  body : Option String
  formatted : String
deriving DecidableEq

/-- types.ts: Config (all fields optional, as in the TypeScript interface). -/
structure Config where
  openRouterApiKey : Option String
  githubToken : Option String
  defaultModel : Option String
  maxConcurrency : Option Nat
deriving DecidableEq

/-- types.ts: RepoInfo. -/
structure RepoInfo where
  owner : String
  name : String
  remoteUrl : String
deriving DecidableEq

/-- types.ts: one chat message of an OpenRouterRequest. -/
structure ChatMessage where
  role : String
  content : String
deriving DecidableEq

/-- types.ts: OpenRouterRequest (max_tokens/temperature are never set by ai.ts). -/
structure OpenRouterRequest where
  model : String
  messages : List ChatMessage
deriving DecidableEq

/-- types.ts: the message part of an OpenRouterResponse choice. -/
structure ORMessage where
  content : String
deriving DecidableEq

/-- types.ts: one choice of an OpenRouterResponse. -/
structure ORChoice where
  message : ORMessage
deriving DecidableEq

/-- types.ts: OpenRouterResponse. -/
structure OpenRouterResponse where
  choices : List ORChoice
deriving DecidableEq

/-- github.ts: the GitHubPR shape (html_url renamed htmlUrl). -/
structure GitHubPR where
  number : Nat
  title : String
  htmlUrl : String
  state : String
deriving DecidableEq

/-- git.ts getCommits record: { hash, message, files }. -/
structure CommitRecord where
  hash : String
  message : String
  files : List String
deriving DecidableEq

/-- Outcome of one `fetch` call: either the promise rejects (network error),
or it resolves to a response with an `ok` flag, a status, a status text and a
parsed JSON body of type β. -/
inductive FetchOutcome (β : Type) where
  | netError (e : String)
  | resp (ok : Bool) (status : Nat) (statusText : String) (body : β)
deriving DecidableEq

/- ---------------------------------------------------------------------
JavaScript string helpers used by the source.
--------------------------------------------------------------------- -/

/-- JS whitespace (the characters relevant to `String.prototype.trim` and
`\s` for the strings this program handles). -/
def isJsSpace (c : Char) : Bool :=
  c = ' ' || c = '\t' || c = '\n' || c = '\r' || c = '\x0b' || c = '\x0c' || c = ' '

/-- JS regex `.` (without the s flag): any char except line terminators. -/
def isDotChar (c : Char) : Bool :=
  !(c = '\n' || c = '\r' || c = ' ' || c = ' ')

/-- JS regex `\w`: ASCII letters, digits and underscore. -/
def isWordChar (c : Char) : Bool :=
  c.isAlphanum || c = '_'

/-- JS `String.prototype.trim` on a char list. -/
def jsTrimList (l : List Char) : List Char :=
  ((l.dropWhile isJsSpace).reverse.dropWhile isJsSpace).reverse

/-- JS `String.prototype.trim`. -/
def jsTrim (s : String) : String :=
  ⟨jsTrimList s.toList⟩

/-- JS `a || d` for an optional string `a` (undefined and "" are falsy). -/
def jsOrStr (a : Option String) (d : String) : String :=
  match a with
  | none => d
  | some s => if s = "" then d else s

/-- Whether `needle` occurs as a contiguous sublist of the second list
(JS `String.prototype.includes`). -/
def hasSub (needle : List Char) : List Char → Bool
  | [] => needle.isEmpty
  | c :: t => needle.isPrefixOf (c :: t) || hasSub needle t

/-- JS `hay.includes(needle)`. -/
def strContains (hay needle : String) : Bool :=
  hasSub needle.toList hay.toList

/-- JS `String.prototype.toLowerCase` (ASCII, as used on config key names). -/
def jsToLower (s : String) : String :=
  ⟨s.toList.map Char.toLower⟩

/-- JS `s.slice(0, n)`. -/
def strTake (s : String) (n : Nat) : String :=
  ⟨s.toList.take n⟩

/-- JS `s.slice(-n)` for n ≤ length. -/
def strTakeRight (s : String) (n : Nat) : String :=
  ⟨s.toList.drop (s.toList.length - n)⟩

/- ---------------------------------------------------------------------
src/lib/ai.ts — AIService.
--------------------------------------------------------------------- -/

/-- ai.ts line 23: `if (!apiKey)` — true when the key is undefined or "". -/
def keyMissing (cfg : Config) : Bool :=
  match cfg.openRouterApiKey with
  | none => true
  | some s => s = ""

/-- ai.ts lines 24-26: the error thrown when no API key is configured. -/
def apiKeyErrorMsg : String :=
  "OpenRouter API key not configured. Use \"ai-git-wizard config set openRouterApiKey YOUR_KEY\""

/-- ai.ts lines 44-46: the error thrown on a non-ok HTTP response. -/
def orApiError (status : Nat) (statusText : String) : String :=
  "OpenRouter API error: " ++ toString status ++ " " ++ statusText

/-- ai.ts makeOpenRouterRequest: checks the key, then performs the fetch.
The second component is the trace of HTTP requests actually issued. -/
def makeOpenRouterRequest (cfg : Config)
    (http : OpenRouterRequest → FetchOutcome OpenRouterResponse)
    (req : OpenRouterRequest) :
    Except String OpenRouterResponse × List OpenRouterRequest :=
  if keyMissing cfg then
    (.error apiKeyErrorMsg, [])
  else
    match http req with
    | .netError e => (.error e, [req])
    | .resp ok status statusText body =>
      if ok then (.ok body, [req]) else (.error (orApiError status statusText), [req])

/-- ai.ts line 62: the change-type label embedded in the commit prompt. -/
def changeTypeLabel : FileType → String
  | .M => "Modified"
  | .A => "Added"
  | .D => "Deleted"

/-- ai.ts lines 59-77: the commit-message prompt template. -/
def commitPrompt (file : FileChange) (diff : String) : String :=
  "Analyze this git diff and generate a conventional commit message.\n\nFile: "
    ++ file.path
    ++ "\nChange Type: "
    ++ changeTypeLabel file.type
    ++ "\n\nDiff:\n"
    ++ diff
    ++ "\n\nGuidelines:\n- Use conventional commit format: type(scope): description\n- Common types: feat, fix, docs, style, refactor, test, chore, perf, ci, build\n- Be specific about what changed\n- Use imperative mood (\"add\", \"fix\", \"update\", not \"added\", \"fixed\", \"updated\")  \n- Focus on the functional change, not implementation details\n- Keep description under 50 characters\n- Include appropriate scope if relevant (e.g., component name, feature area)\n- Examples: \"feat(auth): add user authentication\", \"fix(ui): resolve button alignment\", \"docs(readme): update installation guide\"\n\nReturn only the commit message in conventional format, no explanation."

/-- ai.ts lines 79-89: the request built by generateCommitMessage. -/
def commitMessageRequest (cfg : Config) (file : FileChange) (diff : String) :
    OpenRouterRequest :=
  { model := jsOrStr cfg.defaultModel "google/gemini-flash-2.5"
    messages :=
      [ { role := "system"
          content := "You are a git commit message expert. Generate clear, concise conventional commit messages." }
      , { role := "user", content := commitPrompt file diff } ] }

/-- ai.ts lines 92-94: `response.choices[0]?.message.content.trim() || default`. -/
def fullMessageOf (file : FileChange) (resp : OpenRouterResponse) : String :=
  match resp.choices.head? with
  | none => "feat: update " ++ file.path
  | some ch =>
    let t := jsTrim ch.message.content
    if t = "" then "feat: update " ++ file.path else t

/-- The `\s*(.+)$` tail of the conventional-commit regex (ai.ts line 97):
greedy whitespace, then a non-empty remainder free of line terminators
(with regex backtracking when the remainder would be empty). -/
def subjectOf (tail : List Char) : Option (List Char) :=
  let r := tail.dropWhile isJsSpace
  match r with
  | [] =>
    match (tail.takeWhile isJsSpace).getLast? with
    | none => none
    | some c => if isDotChar c then some [c] else none
  | _ => if r.all isDotChar then some r else none

/-- ai.ts line 97: matching `/^(\w+)(?:\(([^)]+)\))?:\s*(.+)$/` against a
char list, returning the three capture groups. -/
def parseConv (cs : List Char) : Option (List Char × Option (List Char) × List Char) :=
  let t := cs.takeWhile isWordChar
  let rest := cs.dropWhile isWordChar
  if t = [] then none
  else
    match rest with
    | '(' :: r2 =>
      let sc := r2.takeWhile (fun c => c != ')')
      let r3 := r2.dropWhile (fun c => c != ')')
      if sc = [] then none
      else
        match r3 with
        | ')' :: ':' :: tail => (subjectOf tail).map (fun sub => (t, some sc, sub))
        | _ => none
    | ':' :: tail => (subjectOf tail).map (fun sub => (t, none, sub))
    | _ => none

/-- String version of the regex match of ai.ts line 97. -/
def parseConventional (s : String) : Option (String × Option String × String) :=
  (parseConv s.toList).map (fun p => (⟨p.1⟩, p.2.1.map (fun l => ⟨l⟩), ⟨p.2.2⟩))

/-- Whether a string matches the conventional-commit shape of ai.ts line 97. -/
def matchesConv (s : String) : Bool :=
  (parseConv s.toList).isSome

/-- ai.ts lines 97-109: building the CommitMessage record from the full
message text (type defaults to "feat", subject to the raw text when the
regex does not match; `formatted` is always the full message). -/
def mkCommitMessage (fullMessage : String) : CommitMessage :=
  match parseConventional fullMessage with
  | some (t, sc, sub) =>
    { emoji := "", type := t, scope := sc, subject := sub, body := none, formatted := fullMessage }
  | none =>
    { emoji := "", type := "feat", scope := none, subject := fullMessage, body := none
      formatted := fullMessage }

/-- ai.ts generateCommitMessage: build the request, perform it, parse the
reply.  Second component: trace of HTTP requests issued. -/
def generateCommitMessage (cfg : Config)
    (http : OpenRouterRequest → FetchOutcome OpenRouterResponse)
    (file : FileChange) (diff : String) :
    Except String CommitMessage × List OpenRouterRequest :=
  let req := commitMessageRequest cfg file diff
  match makeOpenRouterRequest cfg http req with
  | (.error e, tr) => (.error e, tr)
  | (.ok resp, tr) => (.ok (mkCommitMessage (fullMessageOf file resp)), tr)

/-- ai.ts lines 121-126: the commit summaries joined for the branch prompt. -/
def commitSummaries (msgs : List CommitMessage) : String :=
  String.intercalate "\n"
    (msgs.map (fun m =>
      m.type ++ (match m.scope with | some s => "(" ++ s ++ ")" | none => "") ++ ": " ++ m.subject))

/-- ai.ts lines 128-141: the branch-name prompt template. -/
def branchPrompt (msgs : List CommitMessage) : String :=
  "Analyze these commit messages and generate a descriptive git branch name.\n\nCommits:\n"
    ++ commitSummaries msgs
    ++ "\n\nGuidelines:\n- Use kebab-case (lowercase with hyphens)\n- Maximum 40 characters\n- Be descriptive but concise\n- Include the main theme/feature being worked on\n- Use conventional prefixes: feat/, fix/, chore/, refactor/, docs/, test/\n- Examples: \"feat/user-authentication\", \"fix/payment-processing-bug\", \"chore/remove-deprecated-apis\"\n\nReturn only the branch name, no explanation."

/-- ai.ts lines 143-153: the request built by generateBranchName. -/
def branchNameRequest (cfg : Config) (msgs : List CommitMessage) : OpenRouterRequest :=
  { model := jsOrStr cfg.defaultModel "google/gemini-flash-1.5"
    messages :=
      [ { role := "system"
          content := "You are a git branch naming expert. Generate clear, descriptive branch names." }
      , { role := "user", content := branchPrompt msgs } ] }

/-- ai.ts generateBranchName. -/
def generateBranchName (cfg : Config)
    (http : OpenRouterRequest → FetchOutcome OpenRouterResponse)
    (msgs : List CommitMessage) :
    Except String String × List OpenRouterRequest :=
  match makeOpenRouterRequest cfg http (branchNameRequest cfg msgs) with
  | (.error e, tr) => (.error e, tr)
  | (.ok resp, tr) =>
    match resp.choices.head? with
    | none => (.ok "feat/automated-changes", tr)
    | some ch =>
      let t := jsTrim ch.message.content
      (.ok (if t = "" then "feat/automated-changes" else t), tr)

/-- ai.ts lines 169-174: the commit list embedded in the PR prompt. -/
def commitListText (commits : List CommitRecord) : String :=
  String.intercalate "\n\n"
    (commits.map (fun c =>
      "- `" ++ strTake c.hash 8 ++ "` " ++ c.message ++ "\n  Files: "
        ++ String.intercalate ", " c.files))

/-- ai.ts lines 176-190: the PR-description prompt template. -/
def prPrompt (branchName : String) (commits : List CommitRecord) : String :=
  "Generate a comprehensive Pull Request description for this branch.\n\nBranch: "
    ++ branchName
    ++ "\nCommits: "
    ++ toString commits.length
    ++ "\n\nDetailed Commits:\n"
    ++ commitListText commits
    ++ "\n\nGenerate a PR description with:\n1. A clear title summarizing the main changes\n2. A brief overview of what this PR accomplishes\n3. A \"Changes\" section listing each commit with its hash and description\n4. Any notable technical details or considerations\n\nFormat as markdown. Be professional but concise."

/-- ai.ts lines 192-202: the request built by generatePRDescription. -/
def prDescriptionRequest (cfg : Config) (branchName : String)
    (commits : List CommitRecord) : OpenRouterRequest :=
  { model := jsOrStr cfg.defaultModel "google/gemini-flash-1.5"
    messages :=
      [ { role := "system"
          content := "You are a technical writer creating pull request descriptions. Be clear, comprehensive, and professional." }
      , { role := "user", content := prPrompt branchName commits } ] }

/-- ai.ts generatePRDescription. -/
def generatePRDescription (cfg : Config)
    (http : OpenRouterRequest → FetchOutcome OpenRouterResponse)
    (branchName : String) (commits : List CommitRecord) :
    Except String String × List OpenRouterRequest :=
  match makeOpenRouterRequest cfg http (prDescriptionRequest cfg branchName commits) with
  | (.error e, tr) => (.error e, tr)
  | (.ok resp, tr) =>
    let d :=
      "## Changes\n\nThis PR contains " ++ toString commits.length
        ++ " commits with various improvements and updates."
    match resp.choices.head? with
    | none => (.ok d, tr)
    | some ch =>
      let t := jsTrim ch.message.content
      (.ok (if t = "" then d else t), tr)

/-- `Promise.all` on already-settled results: the value list indexed by input
position when every promise fulfilled, the first rejection otherwise. -/
def promiseAllE : List (Except String CommitMessage) → Except String (List CommitMessage)
  | [] => .ok []
  | .error e :: _ => .error e
  | .ok m :: rest =>
    match promiseAllE rest with
    | .ok ms => .ok (m :: ms)
    | .error e => .error e

/-- ai.ts generateCommitMessagesInParallel: fan out one generateCommitMessage
per pair, `Promise.all` the results, wrap a failure.  The trace collects the
HTTP requests of every started job (all jobs start regardless of failures). -/
def generateCommitMessagesInParallel (cfg : Config)
    (http : OpenRouterRequest → FetchOutcome OpenRouterResponse)
    (pairs : List (FileChange × String)) :
    Except String (List CommitMessage) × List OpenRouterRequest :=
  let results := pairs.map (fun p => generateCommitMessage cfg http p.1 p.2)
  let value :=
    match promiseAllE (results.map (fun r => r.1)) with
    | .ok ms => .ok ms
    | .error e => .error ("Failed to generate commit messages: " ++ e)
  (value, (results.map (fun r => r.2)).flatten)

/- ---------------------------------------------------------------------
Concurrency model for the fan-out of generateCommitMessage calls.

The event loop may complete the N in-flight generations in any order; a
schedule σ lists the input indices in completion order.  The completion log
records (index, value) pairs as they complete; `Promise.all` then assembles
the result list by input index (position i of the array of promises), by
looking each index up in the log.  This makes "the assembled list is in
input order regardless of completion order" a provable statement instead of
a definitional one.
--------------------------------------------------------------------- -/

/-- A fallback commit message (never reached when the schedule only mentions
valid indices); needed to keep lookups total. -/
def dummyCM : CommitMessage :=
  { emoji := "", type := "", scope := none, subject := "", body := none, formatted := "" }

/-- The per-index generated value: message i is generated from pair i. -/
def genAt (pairs : List (FileChange × String)) (gen : FileChange → String → CommitMessage)
    (i : Nat) : CommitMessage :=
  match pairs[i]? with
  | some p => gen p.1 p.2
  | none => dummyCM

/-- The completion log of a schedule σ: for each completed index (in
completion order) the index together with the message generated from the
pair at that index. -/
def completionLog (pairs : List (FileChange × String))
    (gen : FileChange → String → CommitMessage) (σ : List Nat) :
    List (Nat × CommitMessage) :=
  σ.filterMap (fun i => (pairs[i]?).map (fun p => (i, gen p.1 p.2)))

/-- First-match lookup by index in a completion log. -/
def lookupNat : List (Nat × CommitMessage) → Nat → Option CommitMessage
  | [], _ => none
  | (j, m) :: rest, i => if j = i then some m else lookupNat rest i

/-- `Promise.all` over a schedule: assemble the values by input index from
the completion log; none if some index never completed. -/
def promiseAllSchedule (pairs : List (FileChange × String))
    (gen : FileChange → String → CommitMessage) (σ : List Nat) :
    Option (List CommitMessage) :=
  (List.range pairs.length).mapM (fun i => lookupNat (completionLog pairs gen σ) i)

/-- workflow.ts lines 106-116 / 223-229: the per-file commit loop — commit i
stages and commits file i with message i; each commit is recorded as the
(path, commit message text) pair passed to git. -/
def commitLoop (msgs : List CommitMessage) (files : List FileChange) :
    List (String × String) :=
  List.zipWith (fun m f => (f.path, m.formatted)) msgs files

/-- workflow.ts: diffs per staged file (step 2), parallel generation under a
completion schedule σ (step 3), then the per-file commit loop (step 5).
Returns the committed (path, message) sequence in commit order. -/
def workflowCommitSequence (files : List FileChange) (diffOf : FileChange → String)
    (gen : FileChange → String → CommitMessage) (σ : List Nat) :
    Option (List (String × String)) :=
  let pairs := files.map (fun f => (f, diffOf f))
  match promiseAllSchedule pairs gen σ with
  | none => none
  | some msgs => some (commitLoop msgs files)

/- ---------------------------------------------------------------------
src/lib/config.ts and src/commands/config.ts — configuration store.

The JSON config file is modelled as an association list of key/value pairs,
where a value is a JSON-representable JavaScript value.  `NaN` is kept as a
distinct value because `parseInt` can produce it; `JSON.stringify` writes it
as `null`, which is what a later `JSON.parse` reads back.
--------------------------------------------------------------------- -/

/-- A JavaScript value that can end up in the config object. -/
inductive JsonValue where
  | str (s : String)
  | num (n : Int)
  | nan
  | null
deriving DecidableEq

/-- What survives `JSON.stringify` followed by `JSON.parse`: NaN serializes
as null; strings and (finite) numbers round-trip unchanged. -/
def jsonRoundTripValue : JsonValue → JsonValue
  | .nan => .null
  | v => v

/-- Decimal digits to an integer value. -/
def digitsToNat (ds : List Char) : Nat :=
  ds.foldl (fun a c => a * 10 + (c.toNat - '0'.toNat)) 0

/-- JS `parseInt(s, 10)`: skip leading whitespace, optional sign, then the
maximal run of decimal digits; NaN when that run is empty. -/
def jsParseInt (s : String) : JsonValue :=
  let cs := s.toList.dropWhile isJsSpace
  match cs with
  | '-' :: r =>
    let ds := r.takeWhile Char.isDigit
    if ds = [] then .nan else .num (-(digitsToNat ds : Int))
  | '+' :: r =>
    let ds := r.takeWhile Char.isDigit
    if ds = [] then .nan else .num (digitsToNat ds : Int)
  | _ =>
    let ds := cs.takeWhile Char.isDigit
    if ds = [] then .nan else .num (digitsToNat ds : Int)

/-- JS object property assignment `config[key] = value` (replace or append). -/
def assign : List (String × JsonValue) → String → JsonValue → List (String × JsonValue)
  | [], k, v => [(k, v)]
  | (k0, v0) :: rest, k, v =>
    if k0 = k then (k, v) :: rest else (k0, v0) :: assign rest k v

/-- JS object property read `config[key]` (undefined when absent). -/
def lookupKey : List (String × JsonValue) → String → Option JsonValue
  | [], _ => none
  | (k0, v0) :: rest, k => if k0 = k then some v0 else lookupKey rest k

/-- config.ts setConfig: update the parsed config object and persist it with
`JSON.stringify` — so every stored value undergoes the JSON round trip
before any later read. -/
def setConfig (store : List (String × JsonValue)) (k : String) (v : JsonValue) :
    List (String × JsonValue) :=
  (assign store k v).map (fun p => (p.1, jsonRoundTripValue p.2))

/-- config.ts getConfigValue: re-read the persisted file and index it. -/
def getConfigValue (store : List (String × JsonValue)) (k : String) : Option JsonValue :=
  lookupKey store k

/-- commands/config.ts lines 47-50: the non-interactive `config set` path
(both key and value supplied): maxConcurrency goes through parseInt, every
other key stores the string as is. -/
def handleConfigSetDirect (store : List (String × JsonValue)) (k v : String) :
    List (String × JsonValue) :=
  setConfig store k (if k = "maxConcurrency" then jsParseInt v else .str v)

/-- config.ts lines 69-72 and commands/config.ts lines 121-122: a key is
secret when its lowercased name contains "token" or "key". -/
def isSecretKey (k : String) : Bool :=
  strContains (jsToLower k) "token" || strContains (jsToLower k) "key"

/-- JS `String(value)` on a config value. -/
def displayJs : JsonValue → String
  | .str s => s
  | .num n => toString n
  | .nan => "NaN"
  | .null => "null"

/-- config.ts maskValue (lines 68-78): secrets longer than 8 characters are
shown as first-4 ++ "..." ++ last-4; shorter (or non-string) secrets as
"[SET]"; non-secret values verbatim.  Used by `config list` and by the
setConfig confirmation line. -/
def maskValue (k : String) (v : JsonValue) : String :=
  if isSecretKey k then
    match v with
    | .str s => if s.length > 8 then strTake s 4 ++ "..." ++ strTakeRight s 4 else "[SET]"
    | _ => "[SET]"
  else displayJs v

/-- commands/config.ts lines 120-126: the value displayed by `config get`
for a set key: masked only when the key is secret, the value is a string
and it is longer than 8 characters; otherwise shown verbatim. -/
def displayedGetValue (k : String) (v : JsonValue) : String :=
  match v with
  | .str s =>
    if isSecretKey k && decide (s.length > 8)
    then strTake s 4 ++ "..." ++ strTakeRight s 4
    else s
  | other => displayJs other

/- ---------------------------------------------------------------------
src/lib/github.ts — GitHubService.findExistingPR.
--------------------------------------------------------------------- -/

/-- github.ts line 66: the PR-lookup URL (open PRs whose head matches the
branch, filtered server-side). -/
def findPRUrl (repo : RepoInfo) (branchName : String) : String :=
  "https://api.github.com/repos/" ++ repo.owner ++ "/" ++ repo.name
    ++ "/pulls?head=" ++ repo.owner ++ ":" ++ branchName ++ "&state=open"

/-- github.ts lines 68-84: the body of findExistingPR's try block — throws
on fetch rejection and on a non-ok status, otherwise yields the first PR of
the response list (or none when the list is empty). -/
def tryFindPR (fetchFn : String → FetchOutcome (List GitHubPR))
    (repo : RepoInfo) (branchName : String) : Except String (Option GitHubPR) :=
  match fetchFn (findPRUrl repo branchName) with
  | .netError e => .error e
  | .resp ok status statusText prs =>
    if ok then .ok prs.head?
    else .error ("GitHub API error: " ++ toString status ++ " " ++ statusText)

/-- github.ts findExistingPR: the catch block swallows any failure of the
try body and returns null ("no PR found") instead of propagating it. -/
def findExistingPR (fetchFn : String → FetchOutcome (List GitHubPR))
    (repo : RepoInfo) (branchName : String) : Option GitHubPR :=
  match tryFindPR fetchFn repo branchName with
  | .error _ => none
  | .ok v => v

/- ---------------------------------------------------------------------
src/lib/config.ts detectRepository — parsing the origin remote URL with
the fixed pattern /github\.com[:\x2f]([^\x2f]+)\x2f([^\x2f.]+)(?:\.git)?$/.
--------------------------------------------------------------------- -/

/-- The git environment detectRepository consults: whether
`git rev-parse --git-dir` succeeds, and the stdout of
`git remote get-url origin` when that command succeeds. -/
structure GitEnv where
  inRepo : Bool
  remoteUrl : Option String
deriving DecidableEq

/-- Matching the part of the remote-URL pattern after `github.com[:/]`:
`([^/]+)` then `/` then `([^/.]+)` then an optional `.git`, anchored at the
end of the string.  Returns (owner, name) capture groups. -/
def matchTail (cs : List Char) : Option (List Char × List Char) :=
  let owner := cs.takeWhile (fun c => c != '/')
  let rest := cs.dropWhile (fun c => c != '/')
  if owner = [] then none
  else
    match rest with
    | '/' :: r2 =>
      let name := r2.takeWhile (fun c => c != '/' && c != '.')
      let r3 := r2.dropWhile (fun c => c != '/' && c != '.')
      if name = [] then none
      else if r3 = [] ∨ r3 = ['.', 'g', 'i', 't'] then some (owner, name) else none
    | _ => none

/-- Consume an expected literal char sequence from the front of a list,
returning the remainder on success. -/
def expectChars : List Char → List Char → Option (List Char)
  | [], rest => some rest
  | e :: es, c :: cs => if c = e then expectChars es cs else none
  | _ :: _, [] => none

/-- Whether the pattern matches starting exactly here: the literal
`github.com`, a `:` or `/` separator, then `matchTail` to the end. -/
def tryHere (cs : List Char) : Option (List Char × List Char) :=
  match expectChars ['g', 'i', 't', 'h', 'u', 'b', '.', 'c', 'o', 'm'] cs with
  | none => none
  | some rest =>
    match rest with
    | c :: rest2 => if c = ':' ∨ c = '/' then matchTail rest2 else none
    | [] => none

/-- The unanchored regex search: try each position left to right (as the JS
regex engine does) and return the capture groups of the leftmost match. -/
def scanGitHub : List Char → Option (List Char × List Char)
  | [] => none
  | c :: cs =>
    match tryHere (c :: cs) with
    | some r => some r
    | none => scanGitHub cs

/-- config.ts line 102-104: `remoteUrl.match(...)` returning owner and name. -/
def parseGitHubRemote (s : String) : Option (String × String) :=
  (scanGitHub s.toList).map (fun p => (⟨p.1⟩, ⟨p.2⟩))

/-- config.ts detectRepository (lines 91-118): none when not inside a git
repository or when `git remote get-url origin` fails; otherwise parse the
trimmed remote URL, yielding none on a pattern mismatch. -/
def detectRepository (env : GitEnv) : Option RepoInfo :=
  if !env.inRepo then none
  else
    match env.remoteUrl with
    | none => none
    | some raw =>
      let remoteUrl := jsTrim raw
      match parseGitHubRemote remoteUrl with
      | some (o, n) => some { owner := o, name := n, remoteUrl := remoteUrl }
      | none => none

/- ---------------------------------------------------------------------
src/commands/workflow.ts — branch resolution (step 3, lines 75-88).
--------------------------------------------------------------------- -/

/-- Result of the branch-resolution step: the branch name the workflow
continues with, whether a branch was created/switched to, and whether the
name came from auto-generation. -/
structure BranchResolution where
  name : String
  created : Bool
  autoGenerated : Bool
deriving DecidableEq

/-- workflow.ts lines 76-88:
`if (branchName && !branchExists(branchName)) createBranch(branchName);`
`else if (!branchName) { branchName = generated; if (!branchExists(branchName)) createBranch(branchName); }`
A supplied empty string is falsy in JS and behaves like no supplied name.
`generated` stands for the name produced by generateBranchName. -/
def resolveBranch (supplied : Option String) (branchHasRef : String → Bool)
    (generated : String) : BranchResolution :=
  match supplied with
  | some b =>
    if b = "" then
      if branchHasRef generated
      then { name := generated, created := false, autoGenerated := true }
      else { name := generated, created := true, autoGenerated := true }
    else if branchHasRef b
    then { name := b, created := false, autoGenerated := false }
    else { name := b, created := true, autoGenerated := false }
  | none =>
    if branchHasRef generated
    then { name := generated, created := false, autoGenerated := true }
    else { name := generated, created := true, autoGenerated := true }

/- ---------------------------------------------------------------------
Helper lemmas.
--------------------------------------------------------------------- -/

theorem takeWhile_all_append {p : Char → Bool} :
    ∀ (l : List Char) (x : Char) (r : List Char), (∀ c ∈ l, p c = true) → p x = false →
      (l ++ x :: r).takeWhile p = l ∧ (l ++ x :: r).dropWhile p = x :: r := by
  intro l
  induction l with
  | nil =>
    intro x r _ hx
    simp [List.takeWhile_cons, List.dropWhile_cons, hx]
  | cons c l ih =>
    intro x r hl hx
    have hc : p c = true := hl c (by simp)
    have hrest := ih x r (fun d hd => hl d (by simp [hd])) hx
    simp [List.takeWhile_cons, List.dropWhile_cons, hc, hrest.1, hrest.2]

theorem takeWhile_all_self {p : Char → Bool} :
    ∀ (l : List Char), (∀ c ∈ l, p c = true) →
      l.takeWhile p = l ∧ l.dropWhile p = [] := by
  intro l
  induction l with
  | nil => simp
  | cons c l ih =>
    intro hl
    have hc : p c = true := hl c (by simp)
    have hrest := ih (fun d hd => hl d (by simp [hd]))
    simp [List.takeWhile_cons, List.dropWhile_cons, hc, hrest.1, hrest.2]

theorem lookupNat_completionLog (pairs : List (FileChange × String))
    (gen : FileChange → String → CommitMessage) :
    ∀ (σ : List Nat), (∀ j ∈ σ, j < pairs.length) → ∀ i ∈ σ,
      lookupNat (completionLog pairs gen σ) i = some (genAt pairs gen i) := by
  intro σ
  induction σ with
  | nil => intro _ i hi; cases hi
  | cons j σ ih =>
    intro hj i hi
    have hjlt : j < pairs.length := hj j (by simp)
    obtain ⟨pj, hpj⟩ : ∃ pj, pairs[j]? = some pj := by
      exact ⟨pairs[j], List.getElem?_eq_getElem hjlt⟩
    have hlog : completionLog pairs gen (j :: σ) =
        (j, gen pj.1 pj.2) :: completionLog pairs gen σ := by
      simp [completionLog, List.filterMap_cons, hpj]
    rw [hlog]
    rcases List.mem_cons.mp hi with hij | hiσ
    · subst hij
      simp [lookupNat, genAt, hpj]
    · by_cases hji : j = i
      · subst hji
        simp [lookupNat, genAt, hpj]
      · simp only [lookupNat, if_neg hji]
        exact ih (fun a ha => hj a (by simp [ha])) i hiσ

theorem mapM_eq_some_of_forall {α β : Type} (f : α → Option β) (g : α → β) :
    ∀ (l : List α), (∀ a ∈ l, f a = some (g a)) → l.mapM f = some (l.map g) := by
  intro l
  induction l with
  | nil => intro _; rfl
  | cons a l ih =>
    intro h
    have ha : f a = some (g a) := h a (by simp)
    have hrest := ih (fun b hb => h b (by simp [hb]))
    rw [List.mapM_cons, ha, hrest]
    rfl

theorem genAt_cons_succ (p : FileChange × String) (pairs : List (FileChange × String))
    (gen : FileChange → String → CommitMessage) (i : Nat) :
    genAt (p :: pairs) gen (i + 1) = genAt pairs gen i := by
  simp [genAt]

theorem range_map_genAt (gen : FileChange → String → CommitMessage) :
    ∀ (pairs : List (FileChange × String)),
      (List.range pairs.length).map (genAt pairs gen) = pairs.map (fun p => gen p.1 p.2) := by
  intro pairs
  induction pairs with
  | nil => simp
  | cons p pairs ih =>
    have h0 : genAt (p :: pairs) gen 0 = gen p.1 p.2 := by simp [genAt]
    calc (List.range (p :: pairs).length).map (genAt (p :: pairs) gen)
        = genAt (p :: pairs) gen 0 ::
            ((List.range pairs.length).map Nat.succ).map (genAt (p :: pairs) gen) := by
          simp [List.range_succ_eq_map]
      _ = gen p.1 p.2 :: (List.range pairs.length).map (genAt pairs gen) := by
          rw [h0, List.map_map]
          congr 1
          apply List.map_congr_left
          intro i _
          exact genAt_cons_succ p pairs gen i
      _ = (p :: pairs).map (fun q => gen q.1 q.2) := by rw [ih]; simp

theorem zipWith_map_left_self {α β γ : Type} (h : β → α → γ) (u : α → β) :
    ∀ (l : List α), List.zipWith h (l.map u) l = l.map (fun a => h (u a) a) := by
  intro l
  induction l with
  | nil => rfl
  | cons a l ih => simp [List.zipWith, ih]

theorem promiseAllE_ok_spec :
    ∀ (rs : List (Except String CommitMessage)) (ms : List CommitMessage),
      promiseAllE rs = .ok ms →
      ms.length = rs.length ∧
        ∀ i (h1 : i < rs.length) (h2 : i < ms.length), rs.get ⟨i, h1⟩ = .ok (ms.get ⟨i, h2⟩) := by
  intro rs
  induction rs with
  | nil =>
    intro ms h
    have hms : ms = [] := by
      simpa [promiseAllE] using h.symm
    subst hms
    exact ⟨rfl, fun i h1 _ => absurd h1 (by simp)⟩
  | cons r rs ih =>
    intro ms h
    cases r with
    | error e => simp [promiseAllE] at h
    | ok m =>
      cases hrest : promiseAllE rs with
      | error e => rw [promiseAllE, hrest] at h; cases h
      | ok ms' =>
        rw [promiseAllE, hrest] at h
        cases h
        obtain ⟨hlen, hidx⟩ := ih ms' hrest
        refine ⟨by simp [hlen], ?_⟩
        intro i h1 h2
        cases i with
        | zero => rfl
        | succ i =>
          exact hidx i (by simpa using h1) (by simpa using h2)

theorem flatten_map_nil {α β : Type} :
    ∀ (l : List α), ((l.map (fun _ => ([] : List β))).flatten) = [] := by
  intro l
  induction l with
  | nil => rfl
  | cons a l ih => simp [ih]

theorem lookupKey_setConfig :
    ∀ (store : List (String × JsonValue)) (k : String) (v : JsonValue),
      lookupKey (setConfig store k v) k = some (jsonRoundTripValue v) := by
  intro store
  induction store with
  | nil => intro k v; simp [setConfig, assign, lookupKey]
  | cons p store ih =>
    intro k v
    by_cases hk : p.1 = k
    · simp [setConfig, assign, hk, lookupKey]
    · have := ih k v
      simp only [setConfig] at this ⊢
      simp [assign, hk, lookupKey, this]

theorem promiseAllSchedule_perm (pairs : List (FileChange × String))
    (gen : FileChange → String → CommitMessage) (σ : List Nat)
    (hσ : List.Perm σ (List.range pairs.length)) :
    promiseAllSchedule pairs gen σ = some (pairs.map (fun p => gen p.1 p.2)) := by
  have hmem : ∀ j ∈ σ, j < pairs.length := by
    intro j hj
    exact List.mem_range.mp (hσ.mem_iff.mp hj)
  have hlook : ∀ i ∈ List.range pairs.length,
      lookupNat (completionLog pairs gen σ) i = some (genAt pairs gen i) := by
    intro i hi
    exact lookupNat_completionLog pairs gen σ hmem i (hσ.mem_iff.mpr hi)
  rw [promiseAllSchedule,
    mapM_eq_some_of_forall (fun i => lookupNat (completionLog pairs gen σ) i)
      (genAt pairs gen) (List.range pairs.length) hlook,
    range_map_genAt]

theorem matchTail_spec (o n tail : List Char) (ho : o ≠ []) (hn : n ≠ [])
    (ho2 : ∀ c ∈ o, c ≠ '/') (hn2 : ∀ c ∈ n, c ≠ '/' ∧ c ≠ '.')
    (ht : tail = [] ∨ tail = ['.', 'g', 'i', 't']) :
    matchTail (o ++ '/' :: (n ++ tail)) = some (o, n) := by
  have hop : ∀ c ∈ o, (c != '/') = true := by
    intro c hc
    simpa using ho2 c hc
  have hnp : ∀ c ∈ n, (c != '/' && c != '.') = true := by
    intro c hc
    have := hn2 c hc
    simp [this.1, this.2]
  have hsplit := takeWhile_all_append (p := fun c => c != '/') o '/' (n ++ tail) hop (by simp)
  have hname : (n ++ tail).takeWhile (fun c => c != '/' && c != '.') = n ∧
      (n ++ tail).dropWhile (fun c => c != '/' && c != '.') = tail := by
    rcases ht with ht | ht
    · subst ht
      have hself := takeWhile_all_self (p := fun c => c != '/' && c != '.') n hnp
      simpa using hself
    · subst ht
      exact takeWhile_all_append (p := fun c => c != '/' && c != '.') n '.' ['g', 'i', 't']
        hnp (by simp)
  rw [matchTail]
  simp only [hsplit.1, hsplit.2, hname.1, hname.2]
  rw [if_neg ho]
  rcases ht with ht | ht <;> subst ht <;> simp [hn]

/- ---------------------------------------------------------------------
Claim C2 — workflow branch resolution.
--------------------------------------------------------------------- -/

/-- C2, counterexample: with supplied branch name "main" that already exists
among branches and auto-generated candidate "feat/auto", the workflow keeps
the supplied name "main", creates no branch, and does not auto-generate —
contradicting the claim that an existing supplied name triggers
auto-generation from the commit messages. -/
theorem claim2_counterexample :
    resolveBranch (some "main") (fun _ => true) "feat/auto"
        = { name := "main", created := false, autoGenerated := false } ∧
    (resolveBranch (some "main") (fun _ => true) "feat/auto").autoGenerated = false ∧
    (resolveBranch (some "main") (fun _ => true) "feat/auto").name ≠ "feat/auto" := by
  refine ⟨rfl, rfl, ?_⟩
  decide

/-- C2, amended: when the caller supplies a non-empty branch name, the name
is used and the branch created/switched to if it does not exist; if it does
exist the workflow keeps the supplied name without creating a branch and
does not auto-generate.  Auto-generation happens only when no (or an empty)
branch name is supplied, in which case the generated name is created only if
it does not already exist. -/
theorem claim2_amended (b generated : String) (branchHasRef : String → Bool)
    (hb : b ≠ "") :
    (branchHasRef b = false →
      resolveBranch (some b) branchHasRef generated
        = { name := b, created := true, autoGenerated := false }) ∧
    (branchHasRef b = true →
      resolveBranch (some b) branchHasRef generated
        = { name := b, created := false, autoGenerated := false }) ∧
    (resolveBranch none branchHasRef generated
      = if branchHasRef generated
        then { name := generated, created := false, autoGenerated := true }
        else { name := generated, created := true, autoGenerated := true }) := by
  refine ⟨?_, ?_, ?_⟩
  · intro hex
    simp [resolveBranch, hb, hex]
  · intro hex
    simp [resolveBranch, hb, hex]
  · by_cases hg : branchHasRef generated <;> simp [resolveBranch, hg]

/-- C2, witness: instantiating the amended theorem at a fresh supplied name. -/
theorem claim2_witness :
    resolveBranch (some "feat/x") (fun _ => false) "gen"
      = { name := "feat/x", created := true, autoGenerated := false } :=
  (claim2_amended "feat/x" "gen" (fun _ => false) (by decide)).1 rfl

/- ---------------------------------------------------------------------
Claim C5 — configuration round trip.
--------------------------------------------------------------------- -/

/-- C5, counterexample: setting maxConcurrency to the non-numeric string
"abc" stores `parseInt("abc") = NaN`, which `JSON.stringify` persists as
null; the subsequent `getConfigValue` therefore returns null, not
`parseInt(v)` (NaN) as the claim states. -/
theorem claim5_counterexample :
    getConfigValue (handleConfigSetDirect [] "maxConcurrency" "abc") "maxConcurrency"
        = some JsonValue.null ∧
    jsParseInt "abc" = JsonValue.nan ∧
    JsonValue.null ≠ JsonValue.nan := by
  refine ⟨rfl, rfl, ?_⟩
  decide

/-- C5, amended: for the non-interactive `config set` path (non-empty key
and value), set-then-get returns the string v unchanged for every key other
than maxConcurrency, and returns `parseInt(v)` for maxConcurrency whenever
`parseInt(v)` is an actual number; when `parseInt(v)` is NaN the JSON
persistence stores null and get returns null. -/
theorem claim5_amended (store : List (String × JsonValue)) (k v : String)
    (_hk : k ≠ "") (_hv : v ≠ "") :
    (k ≠ "maxConcurrency" →
      getConfigValue (handleConfigSetDirect store k v) k = some (JsonValue.str v)) ∧
    (∀ m : Int, k = "maxConcurrency" → jsParseInt v = JsonValue.num m →
      getConfigValue (handleConfigSetDirect store k v) k = some (JsonValue.num m)) ∧
    (k = "maxConcurrency" → jsParseInt v = JsonValue.nan →
      getConfigValue (handleConfigSetDirect store k v) k = some JsonValue.null) := by
  refine ⟨?_, ?_, ?_⟩
  · intro hne
    have := lookupKey_setConfig store k (JsonValue.str v)
    simpa [handleConfigSetDirect, hne, getConfigValue, jsonRoundTripValue] using this
  · intro m hkk hpv
    have := lookupKey_setConfig store k (jsParseInt v)
    simpa [handleConfigSetDirect, hkk, getConfigValue, hpv, jsonRoundTripValue] using this
  · intro hkk hpv
    have := lookupKey_setConfig store k (jsParseInt v)
    simpa [handleConfigSetDirect, hkk, getConfigValue, hpv, jsonRoundTripValue] using this

/-- C5, witness: a numeric round trip through maxConcurrency. -/
theorem claim5_witness :
    getConfigValue (handleConfigSetDirect [] "maxConcurrency" "5") "maxConcurrency"
      = some (JsonValue.num 5) :=
  (claim5_amended [] "maxConcurrency" "5" (by decide) (by decide)).2.1 5 rfl rfl

/- ---------------------------------------------------------------------
Claim C6 — masking of long secrets.
--------------------------------------------------------------------- -/

/-- C6: for every secret key (name containing "token" or "key"
case-insensitively) and every string secret longer than 8 characters, both
the `config list` display (maskValue) and the `config get` display consist
of the first 4 characters, an ellipsis and the last 4 characters; moreover
the display depends only on those 8 boundary characters — two secrets
agreeing on their first 4 and last 4 characters display identically, so no
middle character ever influences (or is revealed by) the output. -/
theorem claim6_masking (k s : String) (hk : isSecretKey k = true) (hs : s.length > 8) :
    maskValue k (JsonValue.str s) = strTake s 4 ++ "..." ++ strTakeRight s 4 ∧
    displayedGetValue k (JsonValue.str s) = strTake s 4 ++ "..." ++ strTakeRight s 4 ∧
    (∀ s2 : String, s2.length > 8 → strTake s2 4 = strTake s 4 →
      strTakeRight s2 4 = strTakeRight s 4 →
      maskValue k (JsonValue.str s2) = maskValue k (JsonValue.str s) ∧
      displayedGetValue k (JsonValue.str s2) = displayedGetValue k (JsonValue.str s)) := by
  refine ⟨?_, ?_, ?_⟩
  · simp [maskValue, hk, hs]
  · simp [displayedGetValue, hk, hs]
  · intro s2 h2 htake hdrop
    constructor
    · simp [maskValue, hk, hs, h2, htake, hdrop]
    · simp [displayedGetValue, hk, hs, h2, htake, hdrop]

/-- C6, witness: masking a concrete 12-character token. -/
theorem claim6_witness :
    maskValue "githubToken" (JsonValue.str "abcdefghijkl")
      = strTake "abcdefghijkl" 4 ++ "..." ++ strTakeRight "abcdefghijkl" 4 :=
  (claim6_masking "githubToken" "abcdefghijkl" (by decide) (by decide)).1

/- ---------------------------------------------------------------------
Claim C10 — secrets of length ≤ 8.
--------------------------------------------------------------------- -/

/-- C10: for a secret key whose stored string value has length at most 8,
`config get` displays the value verbatim and unmasked while `config list`
(maskValue) displays the placeholder "[SET]"; the first-4/last-4 masking
applies only to string secrets strictly longer than 8 characters. -/
theorem claim10_short_secret (k s : String) (hk : isSecretKey k = true)
    (hs : s.length ≤ 8) :
    displayedGetValue k (JsonValue.str s) = s ∧
    maskValue k (JsonValue.str s) = "[SET]" ∧
    (∀ s2 : String, s2.length > 8 →
      displayedGetValue k (JsonValue.str s2) = strTake s2 4 ++ "..." ++ strTakeRight s2 4 ∧
      maskValue k (JsonValue.str s2) = strTake s2 4 ++ "..." ++ strTakeRight s2 4) := by
  have hns : ¬ (8 < s.length) := not_lt.mpr hs
  refine ⟨?_, ?_, ?_⟩
  · simp [displayedGetValue, hk, hns]
  · simp [maskValue, hk, hns]
  · intro s2 h2
    exact ⟨by simp [displayedGetValue, hk, h2], by simp [maskValue, hk, h2]⟩

/-- C10, witness: an 8-character API key is shown verbatim by `config get`. -/
theorem claim10_witness :
    displayedGetValue "openRouterApiKey" (JsonValue.str "12345678") = "12345678" :=
  (claim10_short_secret "openRouterApiKey" "12345678" (by decide) (by decide)).1

/- ---------------------------------------------------------------------
Claim C7 — missing API key rejects before any HTTP request.
--------------------------------------------------------------------- -/

/-- C7: when the configured OpenRouter API key is unset or the empty string,
generateCommitMessage — and likewise generateBranchName,
generatePRDescription and (for a non-empty input list)
generateCommitMessagesInParallel — fails with the "OpenRouter API key not
configured" error while its HTTP request trace is empty: no request is ever
issued. -/
theorem claim7_no_key_rejects (cfg : Config)
    (http : OpenRouterRequest → FetchOutcome OpenRouterResponse)
    (file : FileChange) (diff : String)
    (h : cfg.openRouterApiKey = none ∨ cfg.openRouterApiKey = some "") :
    (generateCommitMessage cfg http file diff).1 = .error apiKeyErrorMsg ∧
    (generateCommitMessage cfg http file diff).2 = [] ∧
    strContains apiKeyErrorMsg "OpenRouter API key not configured" = true ∧
    (∀ msgs, (generateBranchName cfg http msgs).1 = .error apiKeyErrorMsg ∧
      (generateBranchName cfg http msgs).2 = []) ∧
    (∀ b commits, (generatePRDescription cfg http b commits).1 = .error apiKeyErrorMsg ∧
      (generatePRDescription cfg http b commits).2 = []) ∧
    (∀ pairs, pairs ≠ [] →
      (generateCommitMessagesInParallel cfg http pairs).1
          = .error ("Failed to generate commit messages: " ++ apiKeyErrorMsg) ∧
      (generateCommitMessagesInParallel cfg http pairs).2 = []) := by
  have hk : keyMissing cfg = true := by
    rcases h with h | h <;> simp [keyMissing, h]
  have hbase : ∀ req, makeOpenRouterRequest cfg http req = (.error apiKeyErrorMsg, []) := by
    intro req
    simp [makeOpenRouterRequest, hk]
  have hgen : ∀ f d, generateCommitMessage cfg http f d = (.error apiKeyErrorMsg, []) := by
    intro f d
    simp [generateCommitMessage, hbase]
  refine ⟨?_, ?_, ?_, ?_, ?_, ?_⟩
  · simp [hgen]
  · simp [hgen]
  · decide
  · intro msgs
    simp [generateBranchName, hbase]
  · intro b commits
    simp [generatePRDescription, hbase]
  · intro pairs hne
    obtain ⟨p, rest, rfl⟩ : ∃ p rest, pairs = p :: rest := by
      cases pairs with
      | nil => exact absurd rfl hne
      | cons p rest => exact ⟨p, rest, rfl⟩
    have hres : (p :: rest).map (fun q => generateCommitMessage cfg http q.1 q.2)
        = (p :: rest).map (fun _ =>
            ((Except.error apiKeyErrorMsg : Except String CommitMessage),
             ([] : List OpenRouterRequest))) :=
      List.map_congr_left (fun q _ => hgen q.1 q.2)
    constructor
    · simp only [generateCommitMessagesInParallel, hres]
      simp [promiseAllE, List.map_map]
    · simp only [generateCommitMessagesInParallel, hres]
      simp [promiseAllE, List.map_map, flatten_map_nil]

/-- C7, witness: a config with no key at all rejects a concrete call with an
empty request trace. -/
theorem claim7_witness :
    (generateCommitMessage ⟨none, none, none, none⟩
      (fun _ => FetchOutcome.resp true 200 "OK" ⟨[]⟩)
      ⟨"a.ts", FileType.M⟩ "test diff").1 = .error apiKeyErrorMsg :=
  (claim7_no_key_rejects _ _ _ _ (Or.inl rfl)).1

/- ---------------------------------------------------------------------
Claim C8 — findExistingPR never propagates a failure.
--------------------------------------------------------------------- -/

/-- C8: findExistingPR returns none ("no PR found") whenever its try-block
fails — on a rejected fetch and on a non-success HTTP status — instead of
throwing; on a successful lookup it returns the first open PR of the
response (the API call filters by head branch and open state server-side),
or none when the list is empty. -/
theorem claim8_findExistingPR (fetchFn : String → FetchOutcome (List GitHubPR))
    (repo : RepoInfo) (branchName : String) :
    (∀ e, tryFindPR fetchFn repo branchName = .error e →
      findExistingPR fetchFn repo branchName = none) ∧
    (∀ e, fetchFn (findPRUrl repo branchName) = .netError e →
      findExistingPR fetchFn repo branchName = none) ∧
    (∀ status statusText prs,
      fetchFn (findPRUrl repo branchName) = .resp false status statusText prs →
      findExistingPR fetchFn repo branchName = none) ∧
    (∀ status statusText prs,
      fetchFn (findPRUrl repo branchName) = .resp true status statusText prs →
      findExistingPR fetchFn repo branchName = prs.head?) := by
  refine ⟨?_, ?_, ?_, ?_⟩
  · intro e he
    simp [findExistingPR, he]
  · intro e he
    simp [findExistingPR, tryFindPR, he]
  · intro status statusText prs hf
    simp [findExistingPR, tryFindPR, hf]
  · intro status statusText prs hf
    simp [findExistingPR, tryFindPR, hf]

/-- C8, witness: a rejected lookup yields "no PR found" rather than an
error. -/
theorem claim8_witness :
    findExistingPR (fun _ => FetchOutcome.netError "ECONNRESET")
      { owner := "acme", name := "widgets", remoteUrl := "u" } "feat/x" = none :=
  (claim8_findExistingPR (fun _ => FetchOutcome.netError "ECONNRESET")
    { owner := "acme", name := "widgets", remoteUrl := "u" } "feat/x").2.1 "ECONNRESET" rfl

/- ---------------------------------------------------------------------
Claim C3 — commit order is the original file-list order.
--------------------------------------------------------------------- -/

/-- C3: for every staged-file list and every completion order σ of the
concurrent message generations (any permutation of the input indices), the
commit sequence produced by the workflow stages and commits the files in
the original file-list order, commit i carrying the message generated for
file i — concurrency does not reorder output. -/
theorem claim3_commit_order (files : List FileChange) (diffOf : FileChange → String)
    (gen : FileChange → String → CommitMessage) (σ : List Nat)
    (hσ : List.Perm σ (List.range files.length)) :
    workflowCommitSequence files diffOf gen σ
      = some (files.map (fun f => (f.path, (gen f (diffOf f)).formatted))) := by
  have hσ2 : List.Perm σ (List.range (files.map (fun f => (f, diffOf f))).length) := by
    simpa using hσ
  have hp := promiseAllSchedule_perm (files.map (fun f => (f, diffOf f))) gen σ hσ2
  simp only [workflowCommitSequence, hp, List.map_map]
  have hmsgs : (files.map fun f =>
        (fun p : FileChange × String => gen p.1 p.2) ((fun f => (f, diffOf f)) f))
      = files.map (fun f => gen f (diffOf f)) := rfl
  rw [show ((fun p : FileChange × String => gen p.1 p.2) ∘ fun f => (f, diffOf f))
      = fun f => gen f (diffOf f) from rfl]
  rw [commitLoop, zipWith_map_left_self (fun m f => (f.path, m.formatted))
    (fun f => gen f (diffOf f)) files]

/-- C3, witness: three staged files with a completion order 2, 0, 1 still
commit in file-list order. -/
theorem claim3_witness :
    workflowCommitSequence
      [⟨"a.ts", FileType.M⟩, ⟨"b.ts", FileType.A⟩, ⟨"c.ts", FileType.D⟩]
      (fun _ => "d") (fun f _ => mkCommitMessage ("feat: update " ++ f.path)) [2, 0, 1]
      = some [("a.ts", "feat: update a.ts"), ("b.ts", "feat: update b.ts"),
              ("c.ts", "feat: update c.ts")] :=
  (claim3_commit_order
    [⟨"a.ts", FileType.M⟩, ⟨"b.ts", FileType.A⟩, ⟨"c.ts", FileType.D⟩]
    (fun _ => "d") (fun f _ => mkCommitMessage ("feat: update " ++ f.path)) [2, 0, 1]
    (by decide)).trans (by decide)

/- ---------------------------------------------------------------------
Claim C4 — parallel generation is length- and index-preserving.
--------------------------------------------------------------------- -/

/-- C4: whenever generateCommitMessagesInParallel succeeds, the result list
has exactly one message per input pair, and the message at index i is the
one generateCommitMessage produces for the pair at index i. -/
theorem claim4_parallel_indexwise (cfg : Config)
    (http : OpenRouterRequest → FetchOutcome OpenRouterResponse)
    (pairs : List (FileChange × String)) (ms : List CommitMessage)
    (h : (generateCommitMessagesInParallel cfg http pairs).1 = .ok ms) :
    ms.length = pairs.length ∧
    ∀ i (h1 : i < pairs.length) (h2 : i < ms.length),
      (generateCommitMessage cfg http (pairs.get ⟨i, h1⟩).1 (pairs.get ⟨i, h1⟩).2).1
        = .ok (ms.get ⟨i, h2⟩) := by
  simp only [generateCommitMessagesInParallel] at h
  cases hall : promiseAllE
      ((pairs.map (fun p => generateCommitMessage cfg http p.1 p.2)).map (fun r => r.1)) with
  | error e =>
    rw [hall] at h
    simp at h
  | ok ms' =>
    rw [hall] at h
    simp at h
    subst h
    obtain ⟨hlen, hidx⟩ := promiseAllE_ok_spec
      ((pairs.map (fun p => generateCommitMessage cfg http p.1 p.2)).map (fun r => r.1))
      ms' hall
    constructor
    · simpa using hlen
    · intro i h1 h2
      have h1m : i <
          ((pairs.map (fun p => generateCommitMessage cfg http p.1 p.2)).map
            (fun r => r.1)).length := by
        simpa using h1
      have := hidx i h1m h2
      simpa [List.get_eq_getElem, List.getElem_map] using this

/-- C4, witness: two pairs yield two messages, applying the theorem at a
concrete configuration and HTTP oracle. -/
theorem claim4_witness :
    ([mkCommitMessage "feat: x", mkCommitMessage "feat: x"].length
      = ([(⟨"a.ts", FileType.M⟩, "d1"), (⟨"b.ts", FileType.A⟩, "d2")]
          : List (FileChange × String)).length) :=
  (claim4_parallel_indexwise ⟨some "k", none, none, none⟩
    (fun _ => FetchOutcome.resp true 200 "OK" ⟨[⟨⟨"feat: x"⟩⟩]⟩)
    [(⟨"a.ts", FileType.M⟩, "d1"), (⟨"b.ts", FileType.A⟩, "d2")]
    [mkCommitMessage "feat: x", mkCommitMessage "feat: x"] (by rfl)).1

/- ---------------------------------------------------------------------
Claim C1 — the formatted field of generateCommitMessage.
--------------------------------------------------------------------- -/

/-- C1, counterexample: with the API key set and the model replying the
non-conventional text "hello world", generateCommitMessage succeeds with
`formatted = "hello world"`, which neither matches the conventional-commit
shape nor equals the default message "feat: update a.ts" — refuting the
claim that `formatted` always matches the shape or falls back to the
default on a non-matching reply. -/
theorem claim1_counterexample :
    (generateCommitMessage ⟨some "k", none, none, none⟩
        (fun _ => FetchOutcome.resp true 200 "OK" ⟨[⟨⟨"hello world"⟩⟩]⟩)
        ⟨"a.ts", FileType.M⟩ "diff").1
      = .ok (mkCommitMessage "hello world") ∧
    (mkCommitMessage "hello world").formatted = "hello world" ∧
    matchesConv "hello world" = false ∧
    ("hello world" : String) ≠ "feat: update " ++ (⟨"a.ts", FileType.M⟩ : FileChange).path := by
  exact ⟨rfl, rfl, by decide, by decide⟩

/-- C1, amended: on a successful HTTP round trip, the returned
CommitMessage's `formatted` field equals the trimmed model reply whenever
that is non-empty — whether or not it matches the conventional shape — and
falls back to the default `feat: update <path>` exactly when the reply is
missing or trims to the empty string; when the full message does not match
the shape, only the parsed `type` (defaulting to "feat") and `subject`
(defaulting to the full text) fields fall back, while `formatted` keeps the
raw reply. -/
theorem claim1_amended (cfg : Config)
    (http : OpenRouterRequest → FetchOutcome OpenRouterResponse)
    (file : FileChange) (diff : String) (status : Nat) (statusText : String)
    (resp : OpenRouterResponse)
    (hk : keyMissing cfg = false)
    (hh : http (commitMessageRequest cfg file diff) = .resp true status statusText resp) :
    (generateCommitMessage cfg http file diff).1
        = .ok (mkCommitMessage (fullMessageOf file resp)) ∧
    (∀ s, (mkCommitMessage s).formatted = s) ∧
    (resp.choices.head? = none → fullMessageOf file resp = "feat: update " ++ file.path) ∧
    (∀ ch, resp.choices.head? = some ch → jsTrim ch.message.content = "" →
      fullMessageOf file resp = "feat: update " ++ file.path) ∧
    (∀ ch, resp.choices.head? = some ch → jsTrim ch.message.content ≠ "" →
      fullMessageOf file resp = jsTrim ch.message.content) ∧
    (matchesConv (fullMessageOf file resp) = false →
      (mkCommitMessage (fullMessageOf file resp)).type = "feat" ∧
      (mkCommitMessage (fullMessageOf file resp)).scope = none ∧
      (mkCommitMessage (fullMessageOf file resp)).subject = fullMessageOf file resp) := by
  refine ⟨?_, ?_, ?_, ?_, ?_, ?_⟩
  · simp [generateCommitMessage, makeOpenRouterRequest, hk, hh]
  · intro s
    cases hp : parseConventional s with
    | none => simp [mkCommitMessage, hp]
    | some x =>
      obtain ⟨t, sc, sub⟩ := x
      simp [mkCommitMessage, hp]
  · intro hch
    simp [fullMessageOf, hch]
  · intro ch hch ht
    simp [fullMessageOf, hch, ht]
  · intro ch hch ht
    simp [fullMessageOf, hch, ht]
  · intro hm
    have hnone : parseConv (fullMessageOf file resp).data = none := by
      cases hx : parseConv (fullMessageOf file resp).data with
      | none => rfl
      | some v => simp [matchesConv, hx] at hm
    have hnone2 : parseConventional (fullMessageOf file resp) = none := by
      simp [parseConventional, hnone]
    simp [mkCommitMessage, hnone2]

/-- C1, witness: applying the amended theorem at the concrete
"hello world" scenario. -/
theorem claim1_witness :
    (generateCommitMessage ⟨some "k", none, none, none⟩
        (fun _ => FetchOutcome.resp true 200 "OK" ⟨[⟨⟨"hello world"⟩⟩]⟩)
        ⟨"a.ts", FileType.M⟩ "diff").1
      = .ok (mkCommitMessage
          (fullMessageOf ⟨"a.ts", FileType.M⟩ ⟨[⟨⟨"hello world"⟩⟩]⟩)) :=
  (claim1_amended ⟨some "k", none, none, none⟩
    (fun _ => FetchOutcome.resp true 200 "OK" ⟨[⟨⟨"hello world"⟩⟩]⟩)
    ⟨"a.ts", FileType.M⟩ "diff" 200 "OK" ⟨[⟨⟨"hello world"⟩⟩]⟩ rfl rfl).1

/- ---------------------------------------------------------------------
Claim C9 — detectRepository and the remote-URL pattern.
--------------------------------------------------------------------- -/

theorem tryHere_ne_g (c : Char) (cs : List Char) (h : c ≠ 'g') :
    tryHere (c :: cs) = none := by
  simp [tryHere, expectChars, h]

theorem tryHere_git_at (cs : List Char) :
    tryHere ('g' :: 'i' :: 't' :: '@' :: cs) = none := by
  simp [tryHere, expectChars]

theorem scanGitHub_step (c : Char) (cs : List Char) (h : tryHere (c :: cs) = none) :
    scanGitHub (c :: cs) = scanGitHub cs := by
  simp only [scanGitHub, h]

theorem scanGitHub_found (sep : Char) (rest : List Char) (r : List Char × List Char)
    (hsep : sep = ':' ∨ sep = '/') (hmt : matchTail rest = some r) :
    scanGitHub ('g' :: 'i' :: 't' :: 'h' :: 'u' :: 'b' :: '.' :: 'c' :: 'o' :: 'm'
        :: sep :: rest) = some r := by
  have htry : tryHere ('g' :: 'i' :: 't' :: 'h' :: 'u' :: 'b' :: '.' :: 'c' :: 'o' :: 'm'
      :: sep :: rest) = some r := by
    rcases hsep with h | h <;> subst h <;> simp [tryHere, expectChars, hmt]
  simp only [scanGitHub, htry]

theorem scanGitHub_https (o n tail : List Char) (ho : o ≠ []) (hn : n ≠ [])
    (ho2 : ∀ c ∈ o, c ≠ '/') (hn2 : ∀ c ∈ n, c ≠ '/' ∧ c ≠ '.')
    (ht : tail = [] ∨ tail = ['.', 'g', 'i', 't']) :
    scanGitHub ('h' :: 't' :: 't' :: 'p' :: 's' :: ':' :: '/' :: '/' :: 'g' :: 'i' :: 't'
        :: 'h' :: 'u' :: 'b' :: '.' :: 'c' :: 'o' :: 'm' :: '/'
        :: (o ++ '/' :: (n ++ tail))) = some (o, n) := by
  have hmt := matchTail_spec o n tail ho hn ho2 hn2 ht
  rw [scanGitHub_step 'h' _ (tryHere_ne_g _ _ (by decide)),
    scanGitHub_step 't' _ (tryHere_ne_g _ _ (by decide)),
    scanGitHub_step 't' _ (tryHere_ne_g _ _ (by decide)),
    scanGitHub_step 'p' _ (tryHere_ne_g _ _ (by decide)),
    scanGitHub_step 's' _ (tryHere_ne_g _ _ (by decide)),
    scanGitHub_step ':' _ (tryHere_ne_g _ _ (by decide)),
    scanGitHub_step '/' _ (tryHere_ne_g _ _ (by decide)),
    scanGitHub_step '/' _ (tryHere_ne_g _ _ (by decide))]
  exact scanGitHub_found '/' _ _ (Or.inr rfl) hmt

theorem scanGitHub_ssh (o n tail : List Char) (ho : o ≠ []) (hn : n ≠ [])
    (ho2 : ∀ c ∈ o, c ≠ '/') (hn2 : ∀ c ∈ n, c ≠ '/' ∧ c ≠ '.')
    (ht : tail = [] ∨ tail = ['.', 'g', 'i', 't']) :
    scanGitHub ('g' :: 'i' :: 't' :: '@' :: 'g' :: 'i' :: 't' :: 'h' :: 'u' :: 'b' :: '.'
        :: 'c' :: 'o' :: 'm' :: ':' :: (o ++ '/' :: (n ++ tail))) = some (o, n) := by
  have hmt := matchTail_spec o n tail ho hn ho2 hn2 ht
  rw [scanGitHub_step 'g' _ (tryHere_git_at _),
    scanGitHub_step 'i' _ (tryHere_ne_g _ _ (by decide)),
    scanGitHub_step 't' _ (tryHere_ne_g _ _ (by decide)),
    scanGitHub_step '@' _ (tryHere_ne_g _ _ (by decide))]
  exact scanGitHub_found ':' _ _ (Or.inl rfl) hmt

/-- C9: the concrete SSH scenario `git@github.com:acme/widgets.git` yields
owner "acme", name "widgets" and the trimmed remote URL; the fixed pattern
extracts owner and name from the GitHub HTTPS form (with or without a
trailing .git) and from the SSH form for every owner free of slashes and
every repository name free of slashes and dots; and detectRepository
returns none when not inside a git repository, when no origin remote
exists, or when the URL does not match the pattern. -/
theorem claim9_detectRepository (o n : String)
    (ho : o.toList ≠ []) (hn : n.toList ≠ [])
    (ho2 : ∀ c ∈ o.toList, c ≠ '/') (hn2 : ∀ c ∈ n.toList, c ≠ '/' ∧ c ≠ '.') :
    detectRepository ⟨true, some "git@github.com:acme/widgets.git"⟩
        = some ⟨"acme", "widgets", "git@github.com:acme/widgets.git"⟩ ∧
    parseGitHubRemote ("https://github.com/" ++ o ++ "/" ++ n ++ ".git") = some (o, n) ∧
    parseGitHubRemote ("https://github.com/" ++ o ++ "/" ++ n) = some (o, n) ∧
    parseGitHubRemote ("git@github.com:" ++ o ++ "/" ++ n ++ ".git") = some (o, n) ∧
    (∀ env : GitEnv, env.inRepo = false → detectRepository env = none) ∧
    detectRepository ⟨true, none⟩ = none ∧
    detectRepository ⟨true, some "https://gitlab.com/a/b"⟩ = none := by
  have happ : ∀ s t : String, (s ++ t).toList = s.toList ++ t.toList := fun _ _ => rfl
  refine ⟨by decide, ?_, ?_, ?_, ?_, by decide, by decide⟩
  · have hscan := scanGitHub_https o.toList n.toList ['.', 'g', 'i', 't'] ho hn ho2 hn2
      (Or.inr rfl)
    have h1 : ("https://github.com/" ++ o ++ "/" ++ n ++ ".git").toList
        = 'h' :: 't' :: 't' :: 'p' :: 's' :: ':' :: '/' :: '/' :: 'g' :: 'i' :: 't'
          :: 'h' :: 'u' :: 'b' :: '.' :: 'c' :: 'o' :: 'm' :: '/'
          :: (o.toList ++ '/' :: (n.toList ++ ['.', 'g', 'i', 't'])) := by
      simp only [happ, List.append_assoc]
      rfl
    simp only [parseGitHubRemote, h1, hscan]
    rfl
  · have hscan := scanGitHub_https o.toList n.toList [] ho hn ho2 hn2 (Or.inl rfl)
    rw [List.append_nil] at hscan
    have h1 : ("https://github.com/" ++ o ++ "/" ++ n).toList
        = 'h' :: 't' :: 't' :: 'p' :: 's' :: ':' :: '/' :: '/' :: 'g' :: 'i' :: 't'
          :: 'h' :: 'u' :: 'b' :: '.' :: 'c' :: 'o' :: 'm' :: '/'
          :: (o.toList ++ '/' :: n.toList) := by
      simp only [happ, List.append_assoc]
      rfl
    simp only [parseGitHubRemote, h1, hscan]
    rfl
  · have hscan := scanGitHub_ssh o.toList n.toList ['.', 'g', 'i', 't'] ho hn ho2 hn2
      (Or.inr rfl)
    have h1 : ("git@github.com:" ++ o ++ "/" ++ n ++ ".git").toList
        = 'g' :: 'i' :: 't' :: '@' :: 'g' :: 'i' :: 't' :: 'h' :: 'u' :: 'b' :: '.'
          :: 'c' :: 'o' :: 'm' :: ':'
          :: (o.toList ++ '/' :: (n.toList ++ ['.', 'g', 'i', 't'])) := by
      simp only [happ, List.append_assoc]
      rfl
    simp only [parseGitHubRemote, h1, hscan]
    rfl
  · intro env henv
    simp [detectRepository, henv]

/-- C9, witness: the HTTPS form at owner "acme" and name "widgets". -/
theorem claim9_witness :
    parseGitHubRemote ("https://github.com/" ++ "acme" ++ "/" ++ "widgets" ++ ".git")
      = some ("acme", "widgets") :=
  (claim9_detectRepository "acme" "widgets" (by decide) (by decide) (by decide)
    (by decide)).2.1

end CommitWizard
